import Mathlib

/-!
# Verification of the motion-synth core

Shallow embedding of the motion-synth repository:

* `ControlTarget`, the per-axis candidate lists and `nextTarget`
  (src/lib/audio/engine.ts and src/app/page.tsx);
* `AudioEngine` with `applyControl`, `noteOn`, `noteOff`
  (src/lib/audio/engine.ts);
* `BowProcessor.update`, the sensor listener state with its orientation,
  motion and watchdog handlers, and `captureCalibration`
  (src/lib/motion/sensors.ts).

Numbers are embedded as real numbers; the engine is modelled in its
post-`start()` configuration, where the audio context and every node of the
signal graph exist (so the `if (!this.ctx) return` style guards become a
single `started` flag).  Scheduling a parameter via `setTargetAtTime` is
modelled as recording the scheduled target value in the engine state.
-/

namespace MotionSynth

/-- `clamp` from sensors.ts / the inline `Math.max(-1, Math.min(1, v))`
of engine.ts: `Math.max(lo, Math.min(hi, v))`. -/
noncomputable def clamp (v lo hi : ℝ) : ℝ := max lo (min hi v)

theorem clamp_le {v lo hi : ℝ} (h : lo ≤ hi) : clamp v lo hi ≤ hi := by
  simp only [clamp, max_le_iff]
  exact ⟨h, min_le_left _ _⟩

theorem le_clamp {v lo hi : ℝ} : lo ≤ clamp v lo hi := le_max_left _ _

theorem clamp_eq_self {v lo hi : ℝ} (h1 : lo ≤ v) (h2 : v ≤ hi) :
    clamp v lo hi = v := by
  simp only [clamp]
  rw [min_eq_right h2, max_eq_right h1]

theorem clamp_clamp {v lo hi : ℝ} (h : lo ≤ hi) :
    clamp (clamp v lo hi) lo hi = clamp v lo hi :=
  clamp_eq_self le_clamp (clamp_le h)

theorem abs_clamp_le {v : ℝ} : |clamp v (-1) 1| ≤ 1 := by
  rw [abs_le]
  exact ⟨le_clamp, clamp_le (by norm_num)⟩

/-- The `ControlTarget` union type of engine.ts. -/
inductive ControlTarget where
  | filterCutoff
  | volume
  | waveBlend
  | vibratoDepth
  | resonance
  | reverb
  | distortion
  | pan
  | delayFeedback
  | pitchBend
  deriving DecidableEq, Repr

open ControlTarget

/-- `BETA_TARGETS` from engine.ts. -/
def BETA_TARGETS : List ControlTarget := [filterCutoff, waveBlend, volume]

/-- `GAMMA_TARGETS` from engine.ts. -/
def GAMMA_TARGETS : List ControlTarget :=
  [vibratoDepth, resonance, reverb, distortion]

/-- `ALPHA_TARGETS` from engine.ts. -/
def ALPHA_TARGETS : List ControlTarget := [pan, delayFeedback, pitchBend]

/-- JavaScript `Array.prototype.indexOf`: index of the first occurrence,
`-1` when the element is absent. -/
def indexOf (c : ControlTarget) : List ControlTarget → Int
  | [] => -1
  | x :: rest =>
      if x = c then 0
      else
        let r := indexOf c rest
        if r = -1 then -1 else r + 1

/-- `nextTarget` from page.tsx:
`list[(list.indexOf(current) + 1) % list.length]`.
The fallback value of `getD` is never reached for a nonempty list, since
`(indexOf + 1) % length` is always a valid index there. -/
def nextTarget (current : ControlTarget) (list : List ControlTarget) :
    ControlTarget :=
  let idx := indexOf current list
  list.getD ((idx + 1) % (list.length : Int)).toNat current

/-- One polyphonic pad voice (engine.ts `Voice`): the numeric parameters of
its two oscillators and three gain nodes.  `freq` is the shared oscillator
frequency, `gainA`/`gainB` the wave-blend mix gains, `voiceGain` the
amplitude-envelope target and `detune` the scheduled detune in cents. -/
structure Voice where
  freq : ℝ
  gainA : ℝ
  gainB : ℝ
  voiceGain : ℝ
  detune : ℝ

/-- The `AudioEngine` state: the scheduled target value of every runtime-
mutable parameter of the signal graph, the wave-blend memory, the started
flag and the voice map (`Map<number, Voice>` as an association list whose
keys stay pairwise distinct). -/
structure AudioEngine where
  started : Bool
  masterGain : ℝ
  filterFreq : ℝ
  filterQ : ℝ
  pan : ℝ
  distCurve : Option ℝ
  delayFeedback : ℝ
  delayDry : ℝ
  delayWet : ℝ
  reverbDry : ℝ
  reverbWet : ℝ
  lfoGain : ℝ
  waveBlend : ℝ
  voices : List (Int × Voice)

/-- The engine right after `start()`: the initial values scheduled by
`setValueAtTime` in engine.ts. -/
noncomputable def startedEngine : AudioEngine where
  started := true
  masterGain := 0.7
  filterFreq := 900
  filterQ := 0.7
  pan := 0
  distCurve := none
  delayFeedback := 0
  delayDry := 1
  delayWet := 0.3
  reverbDry := 1
  reverbWet := 0
  lfoGain := 0
  waveBlend := 0
  voices := []

/-- `AudioEngine.midiToHz`: `440 * Math.pow(2, (midi - 69) / 12)`. -/
noncomputable def midiToHz (midi : Int) : ℝ :=
  440 * (2 : ℝ) ^ (((midi : ℝ) - 69) / 12)

/-- `Map.get` on the voice map. -/
def lookupVoice (midi : Int) : List (Int × Voice) → Option Voice
  | [] => none
  | p :: rest => if p.1 = midi then some p.2 else lookupVoice midi rest

/-- `Map.delete` on the voice map (removes the entry for the key; the keys
are pairwise distinct, so removing the first occurrence is removal of the
only occurrence). -/
def eraseVoice (midi : Int) : List (Int × Voice) → List (Int × Voice)
  | [] => []
  | p :: rest => if p.1 = midi then rest else p :: eraseVoice midi rest

/-- A `Map<number, Voice>` never holds two entries with the same key. -/
def KeysNodup (l : List (Int × Voice)) : Prop := (l.map Prod.fst).Nodup

/-- Number of voice-map entries stored under a given pitch key. -/
def countKey (midi : Int) (l : List (Int × Voice)) : Nat :=
  (l.filter (fun p => p.1 = midi)).length

/-- `AudioEngine.noteOn(midi, velocity)`: returns unchanged unless started
(`if (!this.ctx || !this.filter) return`), returns unchanged when the pitch
already sounds (`if (this.voices.has(midi)) return`), else creates a voice
whose gains follow the current wave blend and registers it. -/
noncomputable def AudioEngine.noteOn (s : AudioEngine) (midi : Int)
    (velocity : ℝ) : AudioEngine :=
  if s.started = false then s
  else if (lookupVoice midi s.voices).isSome then s
  else
    let vol := max 0.05 velocity * 0.2
    let voice : Voice :=
      { freq := midiToHz midi
        gainA := 1 - s.waveBlend
        gainB := s.waveBlend
        voiceGain := vol
        detune := 0 }
    { s with voices := (midi, voice) :: s.voices }

/-- `AudioEngine.noteOff(midi)`: `const v = this.voices.get(midi);
if (!v || !this.ctx) return;` then ramps the voice down and deletes it
from the map. -/
def AudioEngine.noteOff (s : AudioEngine) (midi : Int) : AudioEngine :=
  if (lookupVoice midi s.voices).isNone || s.started = false then s
  else { s with voices := eraseVoice midi s.voices }

/-- `AudioEngine.applyControl(target, value)`: clamps the incoming value to
[-1, 1] and dispatches on the target, scheduling the parameter updates of
engine.ts lines 282-360.  Scheduled `setTargetAtTime` values are recorded
in the state. -/
noncomputable def AudioEngine.applyControl (s : AudioEngine)
    (target : ControlTarget) (value : ℝ) : AudioEngine :=
  if s.started = false then s
  else
    let v := clamp value (-1) 1
    match target with
    | .filterCutoff =>
        let norm := (v + 1) * 0.5
        let cutoff := 200 * (20 : ℝ) ^ norm
        { s with filterFreq := cutoff }
    | .volume =>
        let vol := 0.15 + ((v + 1) * 0.5) * 0.75
        { s with masterGain := vol }
    | .waveBlend =>
        let blend := (v + 1) * 0.5
        { s with
            waveBlend := blend
            voices :=
              s.voices.map
                (fun p => (p.1, { p.2 with gainA := 1 - blend, gainB := blend })) }
    | .vibratoDepth =>
        let cents := |v| * 40
        { s with lfoGain := cents }
    | .resonance =>
        let q := 0.5 + |v| * 14
        { s with filterQ := q }
    | .reverb =>
        let mix := |v|
        { s with reverbWet := mix * 0.8, reverbDry := 1 - mix * 0.3 }
    | .distortion =>
        let amount := |v|
        if amount < 0.05 then { s with distCurve := none }
        else { s with distCurve := some (amount * 50) }
    | .pan => { s with pan := v }
    | .delayFeedback =>
        let fb := |v| * 0.75
        { s with delayFeedback := fb, delayWet := min (fb + 0.1) 0.5 }
    | .pitchBend =>
        let cents := v * 200
        { s with voices :=
            s.voices.map (fun p => (p.1, { p.2 with detune := cents })) }

/-! ## Bow velocity estimator (sensors.ts) -/

/-- `DAMPING` from sensors.ts. -/
noncomputable def DAMPING : ℝ := 0.91

/-- `DEAD_ZONE` from sensors.ts. -/
noncomputable def DEAD_ZONE : ℝ := 0.06

/-- `MAX_VEL` from sensors.ts. -/
noncomputable def MAX_VEL : ℝ := 10

/-- `MIN_ONSET_GAP_MS` from sensors.ts. -/
noncomputable def MIN_ONSET_GAP_MS : ℝ := 120

/-- The mutable fields of the `BowProcessor` class.  Times are in
milliseconds on the `performance.now()` clock. -/
structure BowProcessor where
  velocity : ℝ
  direction : ℝ
  lastOnsetTime : ℝ
  lastTime : ℝ
  invertAxis : Bool

/-- The record returned by `BowProcessor.update`. -/
structure BowOut where
  energy : ℝ
  direction : ℝ
  onset : Bool

/-- A freshly constructed `BowProcessor` (all numeric fields 0 except the
default direction 1). -/
def BowProcessor.init (invert : Bool) : BowProcessor where
  velocity := 0
  direction := 1
  lastOnsetTime := 0
  lastTime := 0
  invertAxis := invert

/-- `BowProcessor.reset()`: only the velocity integrator is cleared. -/
def BowProcessor.reset (p : BowProcessor) : BowProcessor :=
  { p with velocity := 0 }

/-- The `dt` computation of `BowProcessor.update`:
`this.lastTime ? Math.min((now - this.lastTime) / 1000, 0.05) : 0.016`
(a zero `lastTime` is the only falsy value that occurs). -/
noncomputable def dtOf (lastTime now : ℝ) : ℝ :=
  if lastTime = 0 then 0.016 else min ((now - lastTime) / 1000) 0.05

/-- The velocity pipeline of `BowProcessor.update`: optional axis
inversion, Euler integration `velocity += a * dt`, frame-rate-independent
damping `velocity *= DAMPING ** (dt * 60)` and the clamp to
`[-MAX_VEL, MAX_VEL]`. -/
noncomputable def stepVelocity (p : BowProcessor) (accel now : ℝ) : ℝ :=
  let dt := dtOf p.lastTime now
  let a := if p.invertAxis then -accel else accel
  clamp ((p.velocity + a * dt) * DAMPING ^ (dt * 60)) (-MAX_VEL) MAX_VEL

/-- The energy computation of `BowProcessor.update`:
`energy = absV / MAX_VEL`, the dead zone
`energy < DEAD_ZONE ? 0 : (energy - DEAD_ZONE) / (1 - DEAD_ZONE)`, and the
final `Math.min(1, energy)`. -/
noncomputable def energyOf (v : ℝ) : ℝ :=
  let e := |v| / MAX_VEL
  let e2 := if e < DEAD_ZONE then 0 else (e - DEAD_ZONE) / (1 - DEAD_ZONE)
  min 1 e2

/-- `const newDir = this.velocity >= 0 ? 1 : -1`. -/
noncomputable def newDirOf (v : ℝ) : ℝ := if 0 ≤ v then 1 else -1

/-- `BowProcessor.update(accel)`, with the `performance.now()` reading
passed explicitly.  Returns the updated processor together with the
`{ energy, direction, onset }` record. -/
noncomputable def BowProcessor.update (p : BowProcessor) (accel now : ℝ) :
    BowProcessor × BowOut :=
  let v := stepVelocity p accel now
  let energy := energyOf v
  let newDir := newDirOf v
  if newDir ≠ p.direction ∧ energy > 0.12 then
    if now - p.lastOnsetTime > MIN_ONSET_GAP_MS then
      ({ velocity := v, direction := newDir, lastOnsetTime := now,
         lastTime := now, invertAxis := p.invertAxis },
       { energy := energy, direction := newDir, onset := true })
    else
      ({ velocity := v, direction := newDir, lastOnsetTime := p.lastOnsetTime,
         lastTime := now, invertAxis := p.invertAxis },
       { energy := energy, direction := newDir, onset := false })
  else
    ({ velocity := v, direction := p.direction, lastOnsetTime := p.lastOnsetTime,
       lastTime := now, invertAxis := p.invertAxis },
     { energy := energy, direction := p.direction, onset := false })

/-! ## Combined sensor listener (sensors.ts `listenSensors`) -/

/-- The `Calibration` record of sensors.ts. -/
structure Calibration where
  betaOffset : ℝ
  gammaOffset : ℝ

/-- The `SensorState` record delivered to the callback. -/
structure SensorState where
  bowEnergy : ℝ
  bowDirection : ℝ
  bowOnset : Bool
  beta : ℝ
  gamma : ℝ

/-- The closure state of `listenSensors`: the bow processor and the
`latestBeta/latestGamma/smoothBeta/smoothGamma/lastMotionTime` variables,
plus the calibration offsets `bOff`/`gOff` fixed at registration. -/
structure Listener where
  bow : BowProcessor
  latestBeta : ℝ
  latestGamma : ℝ
  smoothBeta : ℝ
  smoothGamma : ℝ
  lastMotionTime : ℝ
  bOff : ℝ
  gOff : ℝ

/-- The listener state right after `listenSensors(callback, calibration,
invertBow)` registers its handlers (`startNow` is the `performance.now()`
value read at registration). -/
def initListener (calibration : Option Calibration) (invertBow : Bool)
    (startNow : ℝ) : Listener where
  bow := BowProcessor.init invertBow
  latestBeta := 0
  latestGamma := 0
  smoothBeta := 0
  smoothGamma := 0
  lastMotionTime := startNow
  bOff := (calibration.map Calibration.betaOffset).getD 0
  gOff := (calibration.map Calibration.gammaOffset).getD 0

/-- The `deviceorientation` handler: `latestBeta = (e.beta ?? 0) - bOff`
and likewise for gamma. -/
def onOrientation (ls : Listener) (eBeta eGamma : Option ℝ) : Listener :=
  { ls with
      latestBeta := eBeta.getD 0 - ls.bOff
      latestGamma := eGamma.getD 0 - ls.gOff }

/-- The `devicemotion` handler: records `lastMotionTime`, feeds the
(already null-coalesced) z acceleration to the bow processor, smooths the
tilt values with `k = 0.2`, and emits a `SensorState`. -/
noncomputable def onMotion (ls : Listener) (accZ now : ℝ) :
    Listener × SensorState :=
  let u := ls.bow.update accZ now
  let sb := ls.smoothBeta + 0.2 * (clamp (ls.latestBeta / 45) (-1) 1 - ls.smoothBeta)
  let sg := ls.smoothGamma + 0.2 * (clamp (ls.latestGamma / 45) (-1) 1 - ls.smoothGamma)
  ({ ls with bow := u.1, smoothBeta := sb, smoothGamma := sg, lastMotionTime := now },
   { bowEnergy := u.2.energy, bowDirection := u.2.direction,
     bowOnset := u.2.onset, beta := sb, gamma := sg })

/-- One firing of the 200 ms safety-watchdog interval: when more than
400 ms have passed since the last motion event it resets the bow velocity
and emits a silent bow state that keeps the smoothed tilt values; otherwise
nothing happens. -/
noncomputable def watchdogTick (ls : Listener) (now : ℝ) :
    Listener × Option SensorState :=
  if now - ls.lastMotionTime > 400 then
    ({ ls with bow := ls.bow.reset },
     some { bowEnergy := 0, bowDirection := 1, bowOnset := false,
            beta := ls.smoothBeta, gamma := ls.smoothGamma })
  else (ls, none)

/-- `captureCalibration()`: resolves with the beta/gamma of the first
orientation sample, null fields coalesced to 0 (the 500 ms timeout fallback
is the case where both fields are absent). -/
def captureCalibration (eBeta eGamma : Option ℝ) : Calibration where
  betaOffset := eBeta.getD 0
  gammaOffset := eGamma.getD 0

/-! ## Theorems -/

/-- C4: for every axis and every target that is a member of that axis's
fixed candidate list, cycling the axis's mapping N times, where N is the
length of that candidate list, returns the mapping to its original target
(each single cycle advances to the next list entry with wrap-around). -/
theorem mapping_cycle_wraps (t : ControlTarget) :
    (t ∈ BETA_TARGETS →
      (fun c => nextTarget c BETA_TARGETS)^[BETA_TARGETS.length] t = t) ∧
    (t ∈ GAMMA_TARGETS →
      (fun c => nextTarget c GAMMA_TARGETS)^[GAMMA_TARGETS.length] t = t) ∧
    (t ∈ ALPHA_TARGETS →
      (fun c => nextTarget c ALPHA_TARGETS)^[ALPHA_TARGETS.length] t = t) := by
  cases t <;> decide

/-- Witness for C4 at a concrete member of each candidate list. -/
theorem mapping_cycle_wraps_witness :
    (waveBlend ∈ BETA_TARGETS ∧
      (fun c => nextTarget c BETA_TARGETS)^[BETA_TARGETS.length] waveBlend
        = waveBlend) ∧
    (reverb ∈ GAMMA_TARGETS ∧
      (fun c => nextTarget c GAMMA_TARGETS)^[GAMMA_TARGETS.length] reverb
        = reverb) ∧
    (pan ∈ ALPHA_TARGETS ∧
      (fun c => nextTarget c ALPHA_TARGETS)^[ALPHA_TARGETS.length] pan = pan) :=
  ⟨⟨by decide, (mapping_cycle_wraps waveBlend).1 (by decide)⟩,
   ⟨by decide, (mapping_cycle_wraps reverb).2.1 (by decide)⟩,
   ⟨by decide, (mapping_cycle_wraps pan).2.2 (by decide)⟩⟩

/-- Unfolding the filter-cutoff branch of `applyControl` on a started
engine. -/
theorem applyControl_filterCutoff (s : AudioEngine) (hs : s.started = true)
    (v : ℝ) :
    (s.applyControl .filterCutoff v).filterFreq
      = 200 * (20 : ℝ) ^ ((clamp v (-1) 1 + 1) * 0.5) := by
  simp [AudioEngine.applyControl, hs]

/-- Unfolding the delay-feedback branch of `applyControl` on a started
engine. -/
theorem applyControl_delayFB (s : AudioEngine) (hs : s.started = true)
    (v : ℝ) :
    (s.applyControl .delayFeedback v).delayFeedback = |clamp v (-1) 1| * 0.75 ∧
    (s.applyControl .delayFeedback v).delayWet
      = min (|clamp v (-1) 1| * 0.75 + 0.1) 0.5 := by
  constructor <;> simp [AudioEngine.applyControl, hs]

/-- `20 ^ (1/2)` lies strictly between 4.47 and 4.475. -/
theorem rpow_twenty_half_bounds :
    4.47 ≤ (20 : ℝ) ^ ((0.5 : ℝ)) ∧ (20 : ℝ) ^ ((0.5 : ℝ)) < 4.475 := by
  have hpos : (0 : ℝ) < (20 : ℝ) ^ ((0.5 : ℝ)) :=
    Real.rpow_pos_of_pos (by norm_num) _
  have hsq : ((20 : ℝ) ^ ((0.5 : ℝ))) ^ (2 : ℕ) = 20 := by
    rw [← Real.rpow_natCast ((20 : ℝ) ^ ((0.5 : ℝ))) 2,
        ← Real.rpow_mul (by norm_num : (0 : ℝ) ≤ 20)]
    have h : (0.5 : ℝ) * ((2 : ℕ) : ℝ) = 1 := by push_cast; norm_num
    rw [h, Real.rpow_one]
  exact ⟨by nlinarith [hpos, hsq], by nlinarith [hpos, hsq]⟩

/-- C1: for every axis value v in [-1,1] applied to the filter-cutoff
target, the scheduled filter frequency target equals 200 * 20^((v+1)/2);
in particular v = -1 gives 200 Hz, v = 0 gives approximately 894 Hz
(200 * 20^0.5, which lies in [894, 895)), and v = 1 gives 4000 Hz. -/
theorem filter_cutoff_mapping (s : AudioEngine) (v : ℝ)
    (hs : s.started = true) (h1 : -1 ≤ v) (h2 : v ≤ 1) :
    (s.applyControl .filterCutoff v).filterFreq
      = 200 * (20 : ℝ) ^ ((v + 1) / 2) ∧
    (s.applyControl .filterCutoff (-1)).filterFreq = 200 ∧
    (s.applyControl .filterCutoff 1).filterFreq = 4000 ∧
    894 ≤ (s.applyControl .filterCutoff 0).filterFreq ∧
    (s.applyControl .filterCutoff 0).filterFreq < 895 := by
  refine ⟨?_, ?_, ?_, ?_, ?_⟩
  · rw [applyControl_filterCutoff s hs v, clamp_eq_self h1 h2]
    have h : (v + 1) * 0.5 = (v + 1) / 2 := by ring
    rw [h]
  · rw [applyControl_filterCutoff s hs (-1),
        clamp_eq_self (le_refl (-1)) (by norm_num)]
    norm_num [Real.rpow_zero]
  · rw [applyControl_filterCutoff s hs 1,
        clamp_eq_self (by norm_num) (le_refl 1)]
    norm_num [Real.rpow_one]
  · rw [applyControl_filterCutoff s hs 0,
        clamp_eq_self (by norm_num) (by norm_num)]
    have h : ((0 : ℝ) + 1) * 0.5 = 0.5 := by norm_num
    rw [h]
    nlinarith [rpow_twenty_half_bounds.1]
  · rw [applyControl_filterCutoff s hs 0,
        clamp_eq_self (by norm_num) (by norm_num)]
    have h : ((0 : ℝ) + 1) * 0.5 = 0.5 := by norm_num
    rw [h]
    nlinarith [rpow_twenty_half_bounds.2]

/-- Witness for C1 on the freshly started engine at v = 0. -/
theorem filter_cutoff_mapping_witness :
    startedEngine.started = true ∧ (-1 : ℝ) ≤ 0 ∧ (0 : ℝ) ≤ 1 ∧
    (startedEngine.applyControl .filterCutoff 0).filterFreq
      = 200 * (20 : ℝ) ^ (((0 : ℝ) + 1) / 2) :=
  ⟨rfl, by norm_num, by norm_num,
   (filter_cutoff_mapping startedEngine 0 rfl (by norm_num) (by norm_num)).1⟩

/-- C2: for every axis value v in [-1,1] applied to the delay-feedback
target, the scheduled feedback gain equals |v| * 0.75 (thus never reaches
1) and the scheduled delay wet gain equals min(|v|*0.75 + 0.1, 0.5); in
particular at v = 1 the feedback is 0.75 and the wet gain is 0.5. -/
theorem delay_feedback_mapping (s : AudioEngine) (v : ℝ)
    (hs : s.started = true) (h1 : -1 ≤ v) (h2 : v ≤ 1) :
    (s.applyControl .delayFeedback v).delayFeedback = |v| * 0.75 ∧
    (s.applyControl .delayFeedback v).delayFeedback < 1 ∧
    (s.applyControl .delayFeedback v).delayWet
      = min (|v| * 0.75 + 0.1) 0.5 ∧
    (s.applyControl .delayFeedback 1).delayFeedback = 0.75 ∧
    (s.applyControl .delayFeedback 1).delayWet = 0.5 := by
  have hv : clamp v (-1) 1 = v := clamp_eq_self h1 h2
  have h1' : clamp (1 : ℝ) (-1) 1 = 1 := clamp_eq_self (by norm_num) (le_refl 1)
  have habs : |v| ≤ 1 := abs_le.mpr ⟨h1, h2⟩
  refine ⟨?_, ?_, ?_, ?_, ?_⟩
  · rw [(applyControl_delayFB s hs v).1, hv]
  · rw [(applyControl_delayFB s hs v).1, hv]
    nlinarith [habs]
  · rw [(applyControl_delayFB s hs v).2, hv]
  · rw [(applyControl_delayFB s hs 1).1, h1']
    norm_num
  · rw [(applyControl_delayFB s hs 1).2, h1']
    norm_num

/-- Witness for C2 on the freshly started engine at v = 1. -/
theorem delay_feedback_mapping_witness :
    startedEngine.started = true ∧ (-1 : ℝ) ≤ 1 ∧ (1 : ℝ) ≤ 1 ∧
    (startedEngine.applyControl .delayFeedback 1).delayFeedback
      = |(1 : ℝ)| * 0.75 :=
  ⟨rfl, by norm_num, le_refl 1,
   (delay_feedback_mapping startedEngine 1 rfl (by norm_num) (le_refl 1)).1⟩

/-- C10: for every control target and every real input value (including
values outside [-1,1]), applyControl first clamps the value to [-1,1], so
applying any value produces exactly the same parameter update as applying
its clamp to [-1,1]; hence every per-target output stays within its
documented range even when the caller passes an out-of-range axis value. -/
theorem applyControl_clamps_first (s : AudioEngine) (t : ControlTarget)
    (value : ℝ) :
    s.applyControl t value = s.applyControl t (clamp value (-1) 1) ∧
    (-1 ≤ clamp value (-1) 1 ∧ clamp value (-1) 1 ≤ 1) ∧
    (s.started = true →
      200 ≤ (s.applyControl .filterCutoff value).filterFreq ∧
      (s.applyControl .filterCutoff value).filterFreq ≤ 4000 ∧
      0.15 ≤ (s.applyControl .volume value).masterGain ∧
      (s.applyControl .volume value).masterGain ≤ 0.9 ∧
      0 ≤ (s.applyControl .waveBlend value).waveBlend ∧
      (s.applyControl .waveBlend value).waveBlend ≤ 1 ∧
      0 ≤ (s.applyControl .vibratoDepth value).lfoGain ∧
      (s.applyControl .vibratoDepth value).lfoGain ≤ 40 ∧
      0.5 ≤ (s.applyControl .resonance value).filterQ ∧
      (s.applyControl .resonance value).filterQ ≤ 14.5 ∧
      0 ≤ (s.applyControl .reverb value).reverbWet ∧
      (s.applyControl .reverb value).reverbWet ≤ 0.8 ∧
      0.7 ≤ (s.applyControl .reverb value).reverbDry ∧
      (s.applyControl .reverb value).reverbDry ≤ 1 ∧
      -1 ≤ (s.applyControl .pan value).pan ∧
      (s.applyControl .pan value).pan ≤ 1 ∧
      0 ≤ (s.applyControl .delayFeedback value).delayFeedback ∧
      (s.applyControl .delayFeedback value).delayFeedback ≤ 0.75 ∧
      0.1 ≤ (s.applyControl .delayFeedback value).delayWet ∧
      (s.applyControl .delayFeedback value).delayWet ≤ 0.5 ∧
      (∀ q ∈ (s.applyControl .pitchBend value).voices,
        -200 ≤ q.2.detune ∧ q.2.detune ≤ 200) ∧
      ((s.applyControl .distortion value).distCurve = none ∨
        ∃ c, (s.applyControl .distortion value).distCurve = some c ∧
          0 ≤ c ∧ c ≤ 50)) := by
  have hc1 : -1 ≤ clamp value (-1) 1 := le_clamp
  have hc2 : clamp value (-1) 1 ≤ 1 := clamp_le (by norm_num)
  have habs0 : 0 ≤ |clamp value (-1) 1| := abs_nonneg _
  have habs1 : |clamp value (-1) 1| ≤ 1 := abs_clamp_le
  refine ⟨?_, ⟨hc1, hc2⟩, fun hs => ?_⟩
  · simp only [AudioEngine.applyControl,
      clamp_clamp (show (-1 : ℝ) ≤ 1 by norm_num)]
  · have hn0 : 0 ≤ (clamp value (-1) 1 + 1) * 0.5 := by nlinarith
    have hn1 : (clamp value (-1) 1 + 1) * 0.5 ≤ 1 := by nlinarith
    have e1 : (1 : ℝ) ≤ (20 : ℝ) ^ ((clamp value (-1) 1 + 1) * 0.5) := by
      have h := Real.rpow_le_rpow_of_exponent_le
        (show (1 : ℝ) ≤ 20 by norm_num) hn0
      rwa [Real.rpow_zero] at h
    have e2 : (20 : ℝ) ^ ((clamp value (-1) 1 + 1) * 0.5) ≤ 20 := by
      have h := Real.rpow_le_rpow_of_exponent_le
        (show (1 : ℝ) ≤ 20 by norm_num) hn1
      rwa [Real.rpow_one] at h
    refine ⟨?_, ?_, ?_, ?_, ?_, ?_, ?_, ?_, ?_, ?_, ?_, ?_, ?_, ?_, ?_, ?_,
      ?_, ?_, ?_, ?_, ?_, ?_⟩ <;>
      simp only [AudioEngine.applyControl, hs, Bool.true_eq_false, if_false]
    · nlinarith [e1]
    · nlinarith [e2]
    · nlinarith
    · nlinarith
    · nlinarith
    · nlinarith
    · nlinarith
    · nlinarith
    · nlinarith
    · nlinarith
    · nlinarith
    · nlinarith
    · nlinarith
    · nlinarith
    · exact hc1
    · exact hc2
    · nlinarith
    · nlinarith
    · exact le_min (by nlinarith) (by norm_num)
    · exact min_le_right _ _
    · intro q hq
      rcases List.mem_map.mp hq with ⟨p, hp, rfl⟩
      refine ⟨?_, ?_⟩
      · show (-200 : ℝ) ≤ clamp value (-1) 1 * 200
        nlinarith
      · show clamp value (-1) 1 * 200 ≤ (200 : ℝ)
        nlinarith
    · by_cases hd : |clamp value (-1) 1| < 0.05
      · left
        rw [if_pos hd]
      · right
        rw [if_neg hd]
        exact ⟨|clamp value (-1) 1| * 50, rfl, by nlinarith, by nlinarith⟩

/-- Witness for C10 on the freshly started engine at the out-of-range
value 5, bound to the pan target. -/
theorem applyControl_clamps_first_witness :
    startedEngine.applyControl pan 5
      = startedEngine.applyControl pan (clamp 5 (-1) 1) ∧
    startedEngine.started = true ∧
    200 ≤ (startedEngine.applyControl filterCutoff 5).filterFreq :=
  ⟨(applyControl_clamps_first startedEngine pan 5).1, rfl,
   ((applyControl_clamps_first startedEngine pan 5).2.2 rfl).1⟩

theorem lookupVoice_none_iff (midi : Int) (l : List (Int × Voice)) :
    lookupVoice midi l = none ↔ midi ∉ l.map Prod.fst := by
  induction l with
  | nil => simp [lookupVoice]
  | cons p rest ih =>
      by_cases h : p.1 = midi
      · simp [lookupVoice, h]
      · simp only [lookupVoice, if_neg h, List.map_cons, List.mem_cons, ih]
        constructor
        · rintro hn (h1 | h2)
          · exact h h1.symm
          · exact hn h2
        · intro hn h2
          exact hn (Or.inr h2)

theorem eraseVoice_keys_sublist (midi : Int) (l : List (Int × Voice)) :
    ((eraseVoice midi l).map Prod.fst).Sublist (l.map Prod.fst) := by
  induction l with
  | nil => simp [eraseVoice]
  | cons p rest ih =>
      by_cases h : p.1 = midi
      · simp only [eraseVoice, if_pos h, List.map_cons]
        exact (List.sublist_cons_self _ _)
      · simp only [eraseVoice, if_neg h, List.map_cons]
        exact ih.cons₂ _

theorem countKey_eq_zero (midi : Int) (l : List (Int × Voice))
    (h : midi ∉ l.map Prod.fst) : countKey midi l = 0 := by
  induction l with
  | nil => rfl
  | cons p rest ih =>
      simp only [List.map_cons, List.mem_cons] at h
      push_neg at h
      have hp : ¬ p.1 = midi := fun hh => h.1 hh.symm
      simp only [countKey, List.filter_cons, decide_eq_true_eq, if_neg hp]
      exact ih h.2

theorem countKey_eq_one (midi : Int) (l : List (Int × Voice))
    (hn : KeysNodup l) (hl : (lookupVoice midi l).isSome = true) :
    countKey midi l = 1 := by
  induction l with
  | nil => simp [lookupVoice] at hl
  | cons p rest ih =>
      simp only [KeysNodup, List.map_cons, List.nodup_cons] at hn
      by_cases h : p.1 = midi
      · have hmem : midi ∉ rest.map Prod.fst := h ▸ hn.1
        simp only [countKey, List.filter_cons, decide_eq_true_eq, if_pos h,
          List.length_cons]
        have h0 := countKey_eq_zero midi rest hmem
        simp only [countKey] at h0
        omega
      · simp only [lookupVoice, if_neg h] at hl
        simp only [countKey, List.filter_cons, decide_eq_true_eq, if_neg h]
        exact ih hn.2 hl

/-- C3: calling noteOn for a pitch that already has an active voice changes
nothing (exactly one voice remains for that pitch, and the engine state —
voice map included — is unchanged); calling noteOff for a pitch with no
active voice changes nothing (noteOff is a total function, so no exception
is possible).  Consequently the voice map holds at most one voice per pitch
key at all times: both operations preserve distinctness of the keys. -/
theorem voice_map_idempotent (s : AudioEngine) (midi : Int) (vel : ℝ) :
    ((lookupVoice midi s.voices).isSome = true → s.noteOn midi vel = s) ∧
    (lookupVoice midi s.voices = none → s.noteOff midi = s) ∧
    (KeysNodup s.voices →
      KeysNodup (s.noteOn midi vel).voices ∧
      KeysNodup (s.noteOff midi).voices) ∧
    (KeysNodup s.voices → (lookupVoice midi s.voices).isSome = true →
      countKey midi (s.noteOn midi vel).voices = 1) := by
  refine ⟨fun h => ?_, fun h => ?_, fun hn => ⟨?_, ?_⟩, fun hn h => ?_⟩
  · by_cases hst : s.started = false <;> simp [AudioEngine.noteOn, hst, h]
  · simp [AudioEngine.noteOff, h]
  · by_cases hst : s.started = false
    · simp [AudioEngine.noteOn, hst, hn]
    · by_cases h : (lookupVoice midi s.voices).isSome = true
      · simp [AudioEngine.noteOn, hst, h, hn]
      · have hfalse : (lookupVoice midi s.voices).isSome = false := by
          simpa using h
        have hnone : lookupVoice midi s.voices = none :=
          Option.not_isSome_iff_eq_none.mp (by simp [hfalse])
        have hmem : midi ∉ s.voices.map Prod.fst :=
          (lookupVoice_none_iff midi s.voices).mp hnone
        simp only [AudioEngine.noteOn, if_neg hst, hfalse, Bool.false_eq_true,
          if_false, KeysNodup, List.map_cons]
        exact List.nodup_cons.mpr ⟨hmem, hn⟩
  · by_cases hc : ((lookupVoice midi s.voices).isNone || !s.started) = true
    · simp [AudioEngine.noteOff, hc, hn]
    · simp only [AudioEngine.noteOff]
      split
      · exact hn
      · exact ((eraseVoice_keys_sublist midi s.voices).nodup hn)
  · have he : s.noteOn midi vel = s := by
      by_cases hst : s.started = false <;> simp [AudioEngine.noteOn, hst, h]
    rw [he]
    exact countKey_eq_one midi s.voices hn h

/-- A concrete voice record used by witnesses. -/
def voice0 : Voice := ⟨0, 0, 0, 0, 0⟩

/-- A started engine holding one voice at pitch 60, used by witnesses. -/
noncomputable def demoEngine : AudioEngine :=
  { startedEngine with voices := [(60, voice0)] }

/-- Witness for C3 on an engine holding exactly one voice at pitch 60:
a duplicate noteOn at 60 and a noteOff at the silent pitch 61 both leave
the engine unchanged, and the voice count at 60 stays 1. -/
theorem voice_map_idempotent_witness :
    (lookupVoice 60 demoEngine.voices).isSome = true ∧
    demoEngine.noteOn 60 0.9 = demoEngine ∧
    lookupVoice 61 demoEngine.voices = none ∧
    demoEngine.noteOff 61 = demoEngine ∧
    KeysNodup demoEngine.voices ∧
    countKey 60 (demoEngine.noteOn 60 0.9).voices = 1 := by
  have h1 : (lookupVoice 60 demoEngine.voices).isSome = true := by
    simp [demoEngine, startedEngine, lookupVoice]
  have h2 : lookupVoice 61 demoEngine.voices = none := by
    simp [demoEngine, startedEngine, lookupVoice]
  have hn : KeysNodup demoEngine.voices := by
    simp [demoEngine, startedEngine, KeysNodup]
  exact ⟨h1, (voice_map_idempotent demoEngine 60 0.9).1 h1, h2,
    (voice_map_idempotent demoEngine 61 0.9).2.1 h2, hn,
    (voice_map_idempotent demoEngine 60 0.9).2.2.2 hn h1⟩

theorem update_fst_velocity (p : BowProcessor) (accel now : ℝ) :
    (p.update accel now).1.velocity = stepVelocity p accel now := by
  simp only [BowProcessor.update]
  split
  · split <;> rfl
  · rfl

theorem update_fst_lastTime (p : BowProcessor) (accel now : ℝ) :
    (p.update accel now).1.lastTime = now := by
  simp only [BowProcessor.update]
  split
  · split <;> rfl
  · rfl

theorem update_fst_invertAxis (p : BowProcessor) (accel now : ℝ) :
    (p.update accel now).1.invertAxis = p.invertAxis := by
  simp only [BowProcessor.update]
  split
  · split <;> rfl
  · rfl

theorem update_snd_energy (p : BowProcessor) (accel now : ℝ) :
    (p.update accel now).2.energy = energyOf (stepVelocity p accel now) := by
  simp only [BowProcessor.update]
  split
  · split <;> rfl
  · rfl

theorem energyOf_mem (v : ℝ) : 0 ≤ energyOf v ∧ energyOf v ≤ 1 := by
  simp only [energyOf]
  refine ⟨le_min (by norm_num) ?_, min_le_left _ _⟩
  split_ifs with h
  · exact le_refl 0
  · have h' : DEAD_ZONE ≤ |v| / MAX_VEL := not_lt.mp h
    have hd : (0 : ℝ) < 1 - DEAD_ZONE := by norm_num [DEAD_ZONE]
    exact div_nonneg (by linarith) (le_of_lt hd)

/-- C5: for every update of the bow velocity estimator, the returned energy
is computed as |velocity|/ceiling with velocity first clamped to the
ceiling (MAX_VEL = 10); any energy below the dead-zone 0.06 is forced to
exactly 0, and above it the value is rescaled so the dead-zone boundary
(|velocity| = 0.6, energy 0.06) maps to 0 and the ceiling maps to 1;
therefore the returned energy always lies in [0,1] for every acceleration
input sequence. -/
theorem bow_energy_bounds (p : BowProcessor) (accel now : ℝ) :
    (p.update accel now).2.energy = energyOf (stepVelocity p accel now) ∧
    (p.update accel now).1.velocity = stepVelocity p accel now ∧
    -MAX_VEL ≤ stepVelocity p accel now ∧
    stepVelocity p accel now ≤ MAX_VEL ∧
    energyOf (0.6 : ℝ) = 0 ∧
    energyOf MAX_VEL = 1 ∧
    0 ≤ (p.update accel now).2.energy ∧
    (p.update accel now).2.energy ≤ 1 := by
  have habs1 : |(0.6 : ℝ)| = 0.6 := abs_of_nonneg (by norm_num)
  have habs2 : |MAX_VEL| = MAX_VEL := abs_of_nonneg (by norm_num [MAX_VEL])
  refine ⟨update_snd_energy p accel now, update_fst_velocity p accel now,
    ?_, ?_, ?_, ?_, ?_, ?_⟩
  · simp only [stepVelocity]
    exact le_clamp
  · simp only [stepVelocity]
    exact clamp_le (by norm_num [MAX_VEL])
  · simp only [energyOf, habs1]
    norm_num [DEAD_ZONE, MAX_VEL]
  · simp only [energyOf, habs2]
    norm_num [DEAD_ZONE, MAX_VEL]
  · rw [update_snd_energy p accel now]
    exact (energyOf_mem _).1
  · rw [update_snd_energy p accel now]
    exact (energyOf_mem _).2

theorem update_of_onset (p : BowProcessor) (accel now : ℝ)
    (hf : newDirOf (stepVelocity p accel now) ≠ p.direction ∧
          energyOf (stepVelocity p accel now) > 0.12)
    (hg : now - p.lastOnsetTime > MIN_ONSET_GAP_MS) :
    p.update accel now =
      ({ velocity := stepVelocity p accel now,
         direction := newDirOf (stepVelocity p accel now),
         lastOnsetTime := now, lastTime := now, invertAxis := p.invertAxis },
       { energy := energyOf (stepVelocity p accel now),
         direction := newDirOf (stepVelocity p accel now), onset := true }) := by
  simp only [BowProcessor.update]
  rw [if_pos hf, if_pos hg]

theorem update_of_flip_noGap (p : BowProcessor) (accel now : ℝ)
    (hf : newDirOf (stepVelocity p accel now) ≠ p.direction ∧
          energyOf (stepVelocity p accel now) > 0.12)
    (hg : ¬(now - p.lastOnsetTime > MIN_ONSET_GAP_MS)) :
    p.update accel now =
      ({ velocity := stepVelocity p accel now,
         direction := newDirOf (stepVelocity p accel now),
         lastOnsetTime := p.lastOnsetTime, lastTime := now,
         invertAxis := p.invertAxis },
       { energy := energyOf (stepVelocity p accel now),
         direction := newDirOf (stepVelocity p accel now), onset := false }) := by
  simp only [BowProcessor.update]
  rw [if_pos hf, if_neg hg]

theorem update_of_noFlip (p : BowProcessor) (accel now : ℝ)
    (hf : ¬(newDirOf (stepVelocity p accel now) ≠ p.direction ∧
            energyOf (stepVelocity p accel now) > 0.12)) :
    p.update accel now =
      ({ velocity := stepVelocity p accel now, direction := p.direction,
         lastOnsetTime := p.lastOnsetTime, lastTime := now,
         invertAxis := p.invertAxis },
       { energy := energyOf (stepVelocity p accel now),
         direction := p.direction, onset := false }) := by
  simp only [BowProcessor.update]
  rw [if_neg hf]

/-- `0.91 ** (0.05 * 60) = 0.91 ** 3 = 0.753571` exactly. -/
theorem damping_rpow_three : DAMPING ^ ((0.05 : ℝ) * 60) = 0.753571 := by
  have h : (0.05 : ℝ) * 60 = ((3 : ℕ) : ℝ) := by norm_num
  simp only [DAMPING]
  rw [h, Real.rpow_natCast]
  norm_num

/-- Initial state of the two-reversal debounce scenario: a bow moving
forward at velocity 5, direction held at 1, last onset long past. -/
def bowRev0 : BowProcessor := ⟨5, 1, 0, 1000, false⟩

/-- First reversal: a hard negative stroke 50 ms after the last sample. -/
noncomputable def bowRevU1 : BowProcessor × BowOut := bowRev0.update (-300) 1050

/-- Second reversal, 50 ms after the first. -/
noncomputable def bowRevU2 : BowProcessor × BowOut := bowRevU1.1.update 300 1100

/-- The intermediate state reached after the first reversal. -/
def bowRevMid : BowProcessor := ⟨-7.53571, -1, 1050, 1050, false⟩

theorem scenario_vel_1 : stepVelocity bowRev0 (-300) 1050 = -7.53571 := by
  simp only [stepVelocity, bowRev0]
  rw [show dtOf (1000 : ℝ) 1050 = 0.05 from by norm_num [dtOf],
    damping_rpow_three]
  simp only [Bool.false_eq_true, if_false]
  rw [clamp_eq_self (by norm_num [MAX_VEL]) (by norm_num [MAX_VEL])]
  norm_num

theorem scenario_vel_2 : stepVelocity bowRevMid 300 1100 = 5.62487247959 := by
  simp only [stepVelocity, bowRevMid]
  rw [show dtOf (1050 : ℝ) 1100 = 0.05 from by norm_num [dtOf],
    damping_rpow_three]
  simp only [Bool.false_eq_true, if_false]
  rw [clamp_eq_self (by norm_num [MAX_VEL]) (by norm_num [MAX_VEL])]
  norm_num

theorem scenario_energy_1 : energyOf (-7.53571 : ℝ) > 0.12 := by
  have habs : |(-7.53571 : ℝ)| = 7.53571 := by
    rw [abs_of_neg (by norm_num)]
    norm_num
  simp only [energyOf, habs, DEAD_ZONE, MAX_VEL]
  rw [if_neg (by norm_num : ¬((7.53571 : ℝ) / 10 < 0.06))]
  rw [gt_iff_lt, lt_min_iff]
  constructor <;> norm_num

theorem scenario_energy_2 : energyOf (5.62487247959 : ℝ) > 0.12 := by
  have habs : |(5.62487247959 : ℝ)| = 5.62487247959 :=
    abs_of_nonneg (by norm_num)
  simp only [energyOf, habs, DEAD_ZONE, MAX_VEL]
  rw [if_neg (by norm_num : ¬((5.62487247959 : ℝ) / 10 < 0.06))]
  rw [gt_iff_lt, lt_min_iff]
  constructor <;> norm_num

theorem newDirOf_neg {v : ℝ} (h : v < 0) : newDirOf v = -1 := by
  simp only [newDirOf]
  rw [if_neg (not_le.mpr h)]

theorem newDirOf_nonneg {v : ℝ} (h : 0 ≤ v) : newDirOf v = 1 := by
  simp only [newDirOf]
  rw [if_pos h]

/-- C7 (amended): an onset event is emitted by the bow velocity estimator
exactly when the sign of the new velocity differs from the held direction,
energy exceeds the hysteresis threshold 0.12, and MORE than 120 ms have
elapsed since the previous onset; in particular, two direction reversals
separated by less than 120 ms (here 50 ms apart) yield exactly one onset
event, not two, while both reversals still flip the reported direction. -/
theorem onset_debounce (p : BowProcessor) (accel now : ℝ) :
    ((p.update accel now).2.onset = true ↔
      (newDirOf (stepVelocity p accel now) ≠ p.direction ∧
       energyOf (stepVelocity p accel now) > 0.12 ∧
       now - p.lastOnsetTime > MIN_ONSET_GAP_MS)) ∧
    bowRevU1.2.onset = true ∧
    bowRevU2.2.onset = false ∧
    bowRevU1.2.direction = -1 ∧
    bowRevU2.2.direction = 1 := by
  have hiff : ∀ (q : BowProcessor) (a n : ℝ),
      ((q.update a n).2.onset = true ↔
        (newDirOf (stepVelocity q a n) ≠ q.direction ∧
         energyOf (stepVelocity q a n) > 0.12 ∧
         n - q.lastOnsetTime > MIN_ONSET_GAP_MS)) := by
    intro q a n
    by_cases hf : newDirOf (stepVelocity q a n) ≠ q.direction ∧
        energyOf (stepVelocity q a n) > 0.12
    · by_cases hg : n - q.lastOnsetTime > MIN_ONSET_GAP_MS
      · rw [update_of_onset q a n hf hg]
        simp [hf.1, hf.2, hg]
      · rw [update_of_flip_noGap q a n hf hg]
        simp [hg]
    · rw [update_of_noFlip q a n hf]
      simp only [Bool.false_eq_true, false_iff]
      intro hc
      exact hf ⟨hc.1, hc.2.1⟩
  have hnd1 : newDirOf (-7.53571 : ℝ) = -1 := newDirOf_neg (by norm_num)
  have hnd2 : newDirOf (5.62487247959 : ℝ) = 1 := newDirOf_nonneg (by norm_num)
  have hf1 : newDirOf (stepVelocity bowRev0 (-300) 1050) ≠ bowRev0.direction ∧
      energyOf (stepVelocity bowRev0 (-300) 1050) > 0.12 := by
    rw [scenario_vel_1, hnd1]
    exact ⟨by norm_num [bowRev0], scenario_energy_1⟩
  have hg1 : (1050 : ℝ) - bowRev0.lastOnsetTime > MIN_ONSET_GAP_MS := by
    norm_num [bowRev0, MIN_ONSET_GAP_MS]
  have hu1 : bowRevU1 = _ := update_of_onset bowRev0 (-300) 1050 hf1 hg1
  have hp2 : bowRevU1.1 = bowRevMid := by
    rw [hu1, scenario_vel_1, hnd1]
    rfl
  have hf2 : newDirOf (stepVelocity bowRevMid 300 1100) ≠ bowRevMid.direction ∧
      energyOf (stepVelocity bowRevMid 300 1100) > 0.12 := by
    rw [scenario_vel_2, hnd2]
    exact ⟨by norm_num [bowRevMid], scenario_energy_2⟩
  have hg2 : ¬((1100 : ℝ) - bowRevMid.lastOnsetTime > MIN_ONSET_GAP_MS) := by
    norm_num [bowRevMid, MIN_ONSET_GAP_MS]
  have hb2 : bowRevU2 = bowRevMid.update 300 1100 := by
    rw [show bowRevU2 = bowRevU1.1.update 300 1100 from rfl, hp2]
  have hu2 := update_of_flip_noGap bowRevMid 300 1100 hf2 hg2
  refine ⟨hiff p accel now, ?_, ?_, ?_, ?_⟩
  · rw [hu1]
  · rw [hb2, hu2]
  · rw [hu1]
    show newDirOf (stepVelocity bowRev0 (-300) 1050) = -1
    rw [scenario_vel_1]
    exact hnd1
  · rw [hb2, hu2]
    show newDirOf (stepVelocity bowRevMid 300 1100) = 1
    rw [scenario_vel_2]
    exact hnd2

/-- Initial state of the boundary counterexample: direction held at 1,
previous onset exactly 120 ms before the incoming sample. -/
def bowCx : BowProcessor := ⟨0, 1, 1000, 1000, false⟩

/-- Counterexample to C7 as stated: at a gap of exactly 120 ms since the
previous onset ("at least 120 ms have elapsed" holds), with a genuine sign
flip and energy above the hysteresis threshold, the code emits NO onset,
because it requires the gap to be strictly greater than 120 ms. -/
theorem onset_at_least_120_counterexample :
    newDirOf (stepVelocity bowCx (-100) 1120) ≠ bowCx.direction ∧
    energyOf (stepVelocity bowCx (-100) 1120) > 0.12 ∧
    (1120 : ℝ) - bowCx.lastOnsetTime ≥ 120 ∧
    (bowCx.update (-100) 1120).2.onset = false := by
  have hv : stepVelocity bowCx (-100) 1120 = -3.767855 := by
    simp only [stepVelocity, bowCx]
    rw [show dtOf (1000 : ℝ) 1120 = 0.05 from by norm_num [dtOf],
      damping_rpow_three]
    simp only [Bool.false_eq_true, if_false]
    rw [clamp_eq_self (by norm_num [MAX_VEL]) (by norm_num [MAX_VEL])]
    norm_num
  have hnd : newDirOf (-3.767855 : ℝ) = -1 := newDirOf_neg (by norm_num)
  have he : energyOf (-3.767855 : ℝ) > 0.12 := by
    have habs : |(-3.767855 : ℝ)| = 3.767855 := by
      rw [abs_of_neg (by norm_num)]
      norm_num
    simp only [energyOf, habs, DEAD_ZONE, MAX_VEL]
    rw [if_neg (by norm_num : ¬((3.767855 : ℝ) / 10 < 0.06))]
    rw [gt_iff_lt, lt_min_iff]
    constructor <;> norm_num
  have hf : newDirOf (stepVelocity bowCx (-100) 1120) ≠ bowCx.direction ∧
      energyOf (stepVelocity bowCx (-100) 1120) > 0.12 := by
    rw [hv, hnd]
    exact ⟨by norm_num [bowCx], he⟩
  have hg : ¬((1120 : ℝ) - bowCx.lastOnsetTime > MIN_ONSET_GAP_MS) := by
    norm_num [bowCx, MIN_ONSET_GAP_MS]
  refine ⟨hf.1, hf.2, by norm_num [bowCx], ?_⟩
  rw [update_of_flip_noGap bowCx (-100) 1120 hf hg]

theorem stepVelocity_zero (p : BowProcessor) (now : ℝ) (h : p.lastTime ≠ 0) :
    stepVelocity p 0 now
      = clamp (p.velocity * DAMPING ^ (min ((now - p.lastTime) / 1000) 0.05 * 60))
          (-MAX_VEL) MAX_VEL := by
  simp only [stepVelocity, dtOf, if_neg h, neg_zero, ite_self, zero_mul,
    add_zero]

theorem damping_rpow_pos (x : ℝ) : 0 < DAMPING ^ x :=
  Real.rpow_pos_of_pos (by norm_num [DAMPING]) x

theorem damping_rpow_le_one {x : ℝ} (hx : 0 ≤ x) : DAMPING ^ x ≤ 1 :=
  Real.rpow_le_one (by norm_num [DAMPING]) (by norm_num [DAMPING]) hx

theorem mul_damping_abs_le {v x : ℝ} (hv : |v| ≤ MAX_VEL) (hx : 0 ≤ x) :
    |v * DAMPING ^ x| ≤ MAX_VEL := by
  rw [abs_mul, abs_of_pos (damping_rpow_pos x)]
  calc |v| * DAMPING ^ x ≤ MAX_VEL * 1 :=
        mul_le_mul hv (damping_rpow_le_one hx) (le_of_lt (damping_rpow_pos x))
          (by norm_num [MAX_VEL])
    _ = MAX_VEL := mul_one _

/-- A zero-acceleration update over an interval of at most 50 ms decays the
velocity by exactly `DAMPING ^ (dt * 60)` (the clamp and the dt cap are
both inactive). -/
theorem update_velocity_zero_small (p : BowProcessor) (now : ℝ)
    (h0 : p.lastTime ≠ 0) (hlt : 0 < now - p.lastTime)
    (hle : now - p.lastTime ≤ 50) (hv : |p.velocity| ≤ MAX_VEL) :
    (p.update 0 now).1.velocity
      = p.velocity * DAMPING ^ ((now - p.lastTime) / 1000 * 60) := by
  rw [update_fst_velocity, stepVelocity_zero p now h0]
  have hmin : min ((now - p.lastTime) / 1000) 0.05 = (now - p.lastTime) / 1000 :=
    min_eq_left (by linarith)
  rw [hmin]
  have habs : |p.velocity * DAMPING ^ ((now - p.lastTime) / 1000 * 60)|
      ≤ MAX_VEL := mul_damping_abs_le hv (by positivity)
  have hb := abs_le.mp habs
  exact clamp_eq_self hb.1 hb.2

/-- C6 (amended): the bow velocity damping step multiplies velocity by
damping^(dt*60) with damping = 0.91, and the identity
damping^(dt1*60) * damping^(dt2*60) = damping^((dt1+dt2)*60) holds; hence,
with zero acceleration input and PROVIDED every update interval — the
coarse one included — stays at or below the 50 ms dt cap, the velocity
(and hence the returned energy) remaining after a fixed elapsed time is
the same whether that time is covered by two small update steps or one
larger one. -/
theorem damping_rate_invariance (p : BowProcessor) (t d1 d2 : ℝ)
    (hp : p.lastTime = t) (ht : 0 < t) (hv : |p.velocity| ≤ MAX_VEL)
    (h1 : 0 < d1) (h2 : 0 < d2) (hsum : d1 + d2 ≤ 50) :
    ((p.update 0 (t + d1)).1.update 0 (t + d1 + d2)).1.velocity
        = (p.update 0 (t + d1 + d2)).1.velocity ∧
    (p.update 0 (t + d1 + d2)).1.velocity
        = p.velocity * DAMPING ^ ((d1 + d2) / 1000 * 60) ∧
    ((p.update 0 (t + d1)).1.update 0 (t + d1 + d2)).2.energy
        = (p.update 0 (t + d1 + d2)).2.energy ∧
    (∀ x y : ℝ, DAMPING ^ (x * 60) * DAMPING ^ (y * 60)
        = DAMPING ^ ((x + y) * 60)) := by
  have hadd : ∀ x y : ℝ, DAMPING ^ (x * 60) * DAMPING ^ (y * 60)
      = DAMPING ^ ((x + y) * 60) := by
    intro x y
    rw [← Real.rpow_add (by norm_num [DAMPING] : (0 : ℝ) < DAMPING)]
    congr 1
    ring
  have hsingle : (p.update 0 (t + d1 + d2)).1.velocity
      = p.velocity * DAMPING ^ ((d1 + d2) / 1000 * 60) := by
    have h := update_velocity_zero_small p (t + d1 + d2)
      (by rw [hp]; exact ne_of_gt ht) (by rw [hp]; linarith)
      (by rw [hp]; linarith) hv
    rw [h, hp]
    congr 2
    ring
  have hstep1 : (p.update 0 (t + d1)).1.velocity
      = p.velocity * DAMPING ^ (d1 / 1000 * 60) := by
    have h := update_velocity_zero_small p (t + d1)
      (by rw [hp]; exact ne_of_gt ht) (by rw [hp]; linarith)
      (by rw [hp]; linarith) hv
    rw [h, hp]
    congr 2
    ring
  have hv1 : |(p.update 0 (t + d1)).1.velocity| ≤ MAX_VEL := by
    rw [hstep1]
    exact mul_damping_abs_le hv (by positivity)
  have hltime : (p.update 0 (t + d1)).1.lastTime = t + d1 :=
    update_fst_lastTime p 0 (t + d1)
  have hstep2 : ((p.update 0 (t + d1)).1.update 0 (t + d1 + d2)).1.velocity
      = p.velocity * DAMPING ^ ((d1 + d2) / 1000 * 60) := by
    have h := update_velocity_zero_small (p.update 0 (t + d1)).1 (t + d1 + d2)
      (by rw [hltime]; positivity) (by rw [hltime]; linarith)
      (by rw [hltime]; linarith) hv1
    rw [h, hltime, hstep1]
    have he : (t + d1 + d2 - (t + d1)) / 1000 * 60 = d2 / 1000 * 60 := by
      ring
    rw [he, mul_assoc, hadd (d1 / 1000) (d2 / 1000)]
    congr 2
    ring
  refine ⟨by rw [hstep2, hsingle], hsingle, ?_, hadd⟩
  rw [update_snd_energy, update_snd_energy, ← update_fst_velocity,
    ← update_fst_velocity, hstep2, hsingle]

/-- Initial state of the damping counterexample: unit velocity, last sample
at time 1000 ms. -/
def bowDvA : BowProcessor := ⟨1, 1, 0, 1000, false⟩

/-- Counterexample to C6 as stated: with zero acceleration throughout, the
same 100 ms of elapsed time produces DIFFERENT velocities when covered by
two 50 ms steps (decay 0.91^6) versus one 100 ms step (decay 0.91^3),
because `update` caps dt at 0.05 s — decay is not invariant to the step
partition once a step exceeds the cap. -/
theorem damping_rate_invariance_counterexample :
    ((bowDvA.update 0 1050).1.update 0 1100).1.velocity
      ≠ (bowDvA.update 0 1100).1.velocity := by
  have hbig : (bowDvA.update 0 1100).1.velocity = 0.753571 := by
    rw [update_fst_velocity,
      stepVelocity_zero bowDvA 1100 (by norm_num [bowDvA])]
    simp only [bowDvA]
    rw [show min ((1100 - (1000 : ℝ)) / 1000) 0.05 = 0.05 from by norm_num,
      damping_rpow_three]
    rw [clamp_eq_self (by norm_num [MAX_VEL]) (by norm_num [MAX_VEL])]
    norm_num
  have hs1v : (bowDvA.update 0 1050).1.velocity = 0.753571 := by
    rw [update_fst_velocity,
      stepVelocity_zero bowDvA 1050 (by norm_num [bowDvA])]
    simp only [bowDvA]
    rw [show min ((1050 - (1000 : ℝ)) / 1000) 0.05 = 0.05 from by norm_num,
      damping_rpow_three]
    rw [clamp_eq_self (by norm_num [MAX_VEL]) (by norm_num [MAX_VEL])]
    norm_num
  have hs1t : (bowDvA.update 0 1050).1.lastTime = 1050 :=
    update_fst_lastTime bowDvA 0 1050
  have hsmall : ((bowDvA.update 0 1050).1.update 0 1100).1.velocity
      = 0.753571 * 0.753571 := by
    rw [update_fst_velocity,
      stepVelocity_zero (bowDvA.update 0 1050).1 1100 (by rw [hs1t]; norm_num)]
    rw [hs1v, hs1t]
    rw [show min ((1100 - (1050 : ℝ)) / 1000) 0.05 = 0.05 from by norm_num,
      damping_rpow_three]
    rw [clamp_eq_self (by norm_num [MAX_VEL]) (by norm_num [MAX_VEL])]
  rw [hsmall, hbig]
  norm_num

/-- Witness for the amended C6 at two 20 ms steps against one 40 ms step. -/
theorem damping_rate_invariance_witness :
    bowDvA.lastTime = 1000 ∧ (0 : ℝ) < 1000 ∧ |bowDvA.velocity| ≤ MAX_VEL ∧
    (0 : ℝ) < 20 ∧ (20 : ℝ) + 20 ≤ 50 ∧
    ((bowDvA.update 0 (1000 + 20)).1.update 0 (1000 + 20 + 20)).1.velocity
      = (bowDvA.update 0 (1000 + 20 + 20)).1.velocity := by
  have hv : |bowDvA.velocity| ≤ MAX_VEL := by
    show |(1 : ℝ)| ≤ MAX_VEL
    rw [abs_one]
    norm_num [MAX_VEL]
  exact ⟨rfl, by norm_num, hv, by norm_num, by norm_num,
    (damping_rate_invariance bowDvA 1000 20 20 rfl (by norm_num) hv
      (by norm_num) (by norm_num) (by norm_num)).1⟩

/-- C8: if no raw acceleration sample arrives for more than 400 ms, the
watchdog forces the reported bow energy to 0 and the direction to the
default (+1) regardless of the integrator's prior velocity, while the two
smoothed tilt values are passed through unchanged (they hold their last
smoothed value and are not reset). -/
theorem watchdog_silences_bow (ls : Listener) (now : ℝ)
    (h : now - ls.lastMotionTime > 400) :
    (watchdogTick ls now).2
      = some { bowEnergy := 0, bowDirection := 1, bowOnset := false,
               beta := ls.smoothBeta, gamma := ls.smoothGamma } ∧
    (watchdogTick ls now).1.bow.velocity = 0 ∧
    (watchdogTick ls now).1.smoothBeta = ls.smoothBeta ∧
    (watchdogTick ls now).1.smoothGamma = ls.smoothGamma := by
  simp [watchdogTick, if_pos h, BowProcessor.reset]

/-- A listener whose integrator still holds a large velocity and whose
smoothed tilt values are nonzero, 450 ms after the last motion sample. -/
noncomputable def lsDemo : Listener where
  bow := ⟨7, -1, 0, 500, false⟩
  latestBeta := 3
  latestGamma := -2
  smoothBeta := 0.25
  smoothGamma := -0.5
  lastMotionTime := 500
  bOff := 0
  gOff := 0

/-- Witness for C8: the watchdog at 950 ms (450 ms of sensor silence)
reports zero energy and default direction despite the prior velocity 7. -/
theorem watchdog_silences_bow_witness :
    (950 : ℝ) - lsDemo.lastMotionTime > 400 ∧
    (watchdogTick lsDemo 950).2
      = some { bowEnergy := 0, bowDirection := 1, bowOnset := false,
               beta := lsDemo.smoothBeta, gamma := lsDemo.smoothGamma } := by
  have h : (950 : ℝ) - lsDemo.lastMotionTime > 400 := by
    norm_num [lsDemo]
  exact ⟨h, (watchdog_silences_bow lsDemo 950 h).1⟩

/-- C9: calibration round-trip — after captureCalibration returns the
offsets taken from a raw orientation reading (beta, gamma), feeding that
exact same raw reading through the sensor pipeline (with smoothing state at
its initial value 0) yields normalized tilt outputs of exactly 0 for both
axes, because the subtracted baseline cancels the raw value before
normalization and the low-pass filter fixes 0. -/
theorem calibration_round_trip (eBeta eGamma : Option ℝ) (invert : Bool)
    (startNow accel now : ℝ) :
    (onMotion (onOrientation
        (initListener (some (captureCalibration eBeta eGamma)) invert startNow)
        eBeta eGamma) accel now).2.beta = 0 ∧
    (onMotion (onOrientation
        (initListener (some (captureCalibration eBeta eGamma)) invert startNow)
        eBeta eGamma) accel now).2.gamma = 0 := by
  have hc0 : clamp (0 : ℝ) (-1) 1 = 0 :=
    clamp_eq_self (by norm_num) (by norm_num)
  have hc : clamp ((0 : ℝ) / 45) (-1) 1 = 0 := by
    rw [zero_div]
    exact hc0
  constructor <;>
    simp [onMotion, onOrientation, initListener, captureCalibration,
      sub_self, hc, hc0]

end MotionSynth
